import Mathlib

/-!
Verification development for the DRTA-learning pipeline
(`tAPTA.py`, `Min3RTA.py`, `Encoding.py`, `test_encoding.py`, `DRTA.py`).

Shallow embedding conventions:
* Python floats are modelled by `ℚ`; `float('inf')` upper bounds by `WithTop ℚ`.
* Python dicts are insertion-ordered association lists; assigning to an existing
  key replaces the value in place, otherwise the pair is appended
  (`dictSet` below), exactly the observable Python semantics.
* Objects stored in `nodes` dictionaries are addressed by their integer `id`
  (an arena); Python object identity between nodes coincides with id equality
  because every node carries a unique id.
-/

set_option allowUnsafeReducibility true in
attribute [semireducible] Rat.add Rat.sub Rat.mul Rat.div Rat.neg Rat.inv Rat.blt
  Rat.normalize Rat.maybeNormalize Rat.divInt Rat.floor Rat.ceil

namespace RTA

/-- Source `tAPTA.Region`: a time region with rational lower bound, possibly infinite
upper bound, and two closure flags.  (Also the node-transition regions of
`Min3RTA.py`, which imports this class.) -/
structure Region where
  lower : ℚ
  upper : WithTop ℚ
  lower_inclusive : Bool
  upper_inclusive : Bool
deriving DecidableEq, Repr

/-- Source `Region.contains` from `tAPTA.py`: closed/open bound checks on each side. -/
def Region.contains (r : Region) (value : ℚ) : Bool :=
  (if r.lower_inclusive then decide (r.lower ≤ value) else decide (r.lower < value)) &&
  (if r.upper_inclusive then decide ((value : WithTop ℚ) ≤ r.upper)
   else decide ((value : WithTop ℚ) < r.upper))

/-- Python `int()` on a rational (truncation towards zero). -/
def pyInt (q : ℚ) : ℤ := if 0 ≤ q then ⌊q⌋ else ⌈q⌉

/-- The time-to-region mapping of `Min3RTA.add_suffix` (lines 314-346):
integer times near the maximum map to `[t,∞)`, other integer times to `[t,t]`,
non-integer times near the maximum to `(⌊t⌋,∞)`, other non-integer times to
`(⌊t⌋,⌊t⌋+1)`; "near" means `abs (time - max_time) < 0.001`. -/
def suffixRegion (time max_time : ℚ) : Region :=
  -- `is_integer = time == int(time)`; `is_max_time = abs(time - max_time) < 0.001`
  if time = (pyInt time : ℚ) then
    if |time - max_time| < 1/1000 then
      { lower := (pyInt time : ℚ), upper := ⊤, lower_inclusive := true, upper_inclusive := false }
    else
      { lower := (pyInt time : ℚ), upper := ((pyInt time : ℚ) : WithTop ℚ),
        lower_inclusive := true, upper_inclusive := true }
  else if |time - max_time| < 1/1000 then
    { lower := (pyInt time : ℚ), upper := ⊤, lower_inclusive := false, upper_inclusive := false }
  else
    { lower := (pyInt time : ℚ), upper := (((pyInt time : ℚ) + 1 : ℚ) : WithTop ℚ),
      lower_inclusive := false, upper_inclusive := false }

/-- Source `RegionTreeNode._are_regions_adjacent_or_overlapping` (Min3RTA.py lines
95-109): overlap ignores closure flags; adjacency compares one upper bound to
the other's lower bound requiring at least one closed side. -/
def regionsAdjacentOrOverlapping (r1 r2 : Region) : Bool :=
  let has_overlap :=
    (decide ((r1.lower : WithTop ℚ) ≤ r2.upper) && decide (r1.upper ≥ (r2.lower : WithTop ℚ))) ||
    (decide ((r2.lower : WithTop ℚ) ≤ r1.upper) && decide (r2.upper ≥ (r1.lower : WithTop ℚ)))
  let is_adjacent :=
    (decide (r1.upper = (r2.lower : WithTop ℚ)) && (r1.upper_inclusive || r2.lower_inclusive)) ||
    (decide (r2.upper = (r1.lower : WithTop ℚ)) && (r2.upper_inclusive || r1.lower_inclusive))
  has_overlap || is_adjacent

/-- Source `RegionTreeNode._merge_regions` (Min3RTA.py lines 111-132): `None` when the
regions are neither adjacent nor overlapping, otherwise the hull with closure
flags inherited from whichever region attains each bound. -/
def mergeRegions (r1 r2 : Region) : Option Region :=
  if ¬ regionsAdjacentOrOverlapping r1 r2 then none
  else
    let lower := min r1.lower r2.lower
    let upper := max r1.upper r2.upper
    let lower_inclusive :=
      (decide (r1.lower = lower) && r1.lower_inclusive) ||
      (decide (r2.lower = lower) && r2.lower_inclusive)
    let upper_inclusive :=
      (decide (r1.upper = upper) && r1.upper_inclusive) ||
      (decide (r2.upper = upper) && r2.upper_inclusive)
    some { lower := lower, upper := upper,
           lower_inclusive := lower_inclusive, upper_inclusive := upper_inclusive }

/-! ### The region alphabet of `BuildTimedAPTA` (tAPTA.py lines 140-166) -/

/-- The κ computation of `BuildTimedAPTA`: fold of
`kappa = max(kappa, int(tau) + (1 if tau > int(tau) else 0))` over every
`(σ, τ)` pair of every trace, starting from `0`. -/
def kappaOf (S : List (List (String × ℚ))) : ℤ :=
  S.foldl (fun kappa trace =>
    trace.foldl (fun kappa p =>
      max kappa (pyInt p.2 + (if p.2 > (pyInt p.2 : ℚ) then 1 else 0))) kappa) 0

/-- The region list built by `BuildTimedAPTA` for a given κ: `[0,0]`, then for
each `i < κ` the pair `(i,i+1)`, `[i+1,i+1]`, and finally `(κ,∞)`. -/
def buildRegions (kappa : ℕ) : List Region :=
  [⟨0, (0 : ℚ), true, true⟩] ++
  (List.range kappa).flatMap (fun i =>
    [⟨(i : ℚ), ((i : ℚ) + 1 : ℚ), false, false⟩,
     ⟨((i : ℚ) + 1 : ℚ), (((i : ℚ) + 1 : ℚ) : WithTop ℚ), true, true⟩]) ++
  [⟨(kappa : ℚ), ⊤, false, false⟩]

/-- Region list produced by `BuildTimedAPTA` on a combined sample set
`S = S_positive + S_negative` (the loop `for i in range(kappa)` is empty for a
non-positive κ, matching `Int.toNat`). -/
def timedAPTARegions (S : List (List (String × ℚ))) : List Region :=
  buildRegions (kappaOf S).toNat

/-! ### Python dict primitives -/

/-- Assignment `d[k] = v` on an insertion-ordered Python dict: replace the value
in place when the key is present, otherwise append the pair. -/
def dictSet {K V : Type} [DecidableEq K] : List (K × V) → K → V → List (K × V)
  | [], k, v => [(k, v)]
  | (k', v') :: rest, k, v =>
    if k' = k then (k, v) :: rest else (k', v') :: dictSet rest k v

/-- Lookup `d.get(k)` on a Python dict. -/
def dictGet? {K V : Type} [DecidableEq K] : List (K × V) → K → Option V
  | [], _ => none
  | (k', v') :: rest, k => if k' = k then some v' else dictGet? rest k

/-- Deletion `del d[k]` on a Python dict. -/
def dictDelete {K V : Type} [DecidableEq K] : List (K × V) → K → List (K × V)
  | [], _ => []
  | (k', v') :: rest, k => if k' = k then rest else (k', v') :: dictDelete rest k

/-- Python set equality for two lists of hashable values. -/
def listSetEq {α : Type} [DecidableEq α] (a b : List α) : Bool :=
  a.all (fun x => decide (x ∈ b)) && b.all (fun x => decide (x ∈ a))

/-! ### Min3RTA.py: nodes, the arena, and the incremental minimiser -/

/-- Source `RegionTreeNode` (Min3RTA.py lines 51-67).  Transition targets and
children are stored as node ids into the `Min3RTA.nodes` arena. -/
structure RegionTreeNode where
  id : ℕ
  is_accepting : Bool := false
  is_rejecting : Bool := false
  transitions : List ((String × Region) × ℕ) := []
  children : List ℕ := []
  is_merged : Bool := false
deriving DecidableEq

/-- Loop of `RegionTreeNode.add_transition` (Min3RTA.py lines 72-86) over a
snapshot of the transition dict.  The source computes `_merge_regions` and then
immediately overwrites the result with `None` (line 77 `merged_region = None`),
so every iteration takes the `continue` branch; the merge branch below is kept
for fidelity but is unreachable. -/
def addTransitionLoop (self : RegionTreeNode) (symbol : String) (region : Region)
    (target_node : ℕ) : List ((String × Region) × ℕ) → Option RegionTreeNode
  | [] => none
  | ((sym, reg), target) :: rest =>
    if sym = symbol ∧ target = target_node then
      let _computed := self.transitions   -- placeholder for evaluation order; see below
      let _merged_attempt := mergeRegions reg region     -- line 75
      let merged_region : Option Region := none          -- line 77: `merged_region = None`
      match merged_region with
      | none => addTransitionLoop self symbol region target_node rest   -- `continue`
      | some m =>
        let newTrans := dictSet (dictDelete self.transitions (sym, reg)) (symbol, m) target_node
        some { self with transitions := newTrans }
    else addTransitionLoop self symbol region target_node rest

/-- Source `RegionTreeNode.add_transition` (Min3RTA.py lines 69-93): after the
(no-op) merge loop, store the transition and append the child if absent. -/
def RegionTreeNode.add_transition (self : RegionTreeNode) (symbol : String)
    (region : Region) (target_node : ℕ) : RegionTreeNode :=
  match addTransitionLoop self symbol region target_node self.transitions with
  | some merged => merged   -- unreachable (dead merge branch), kept for fidelity
  | none =>
    { self with
      transitions := dictSet self.transitions (symbol, region) target_node,
      children :=
        if target_node ∈ self.children then self.children
        else self.children ++ [target_node] }

/-- Source `Min3RTA` state (Min3RTA.py lines 243-255). -/
structure Min3RTA where
  nodes : List (ℕ × RegionTreeNode) := []
  register : List (ℕ × ℕ) := []
  root : Option ℕ := none
  next_node_id : ℕ := 0
deriving DecidableEq

/-- Arena lookup `self.nodes[node_id]`.  Well-formed states never miss. -/
def getNode (st : Min3RTA) (node_id : ℕ) : Option RegionTreeNode :=
  dictGet? st.nodes node_id

/-- Arena update of one node object (Python mutates the object in place). -/
def setNode (st : Min3RTA) (node_id : ℕ) (node : RegionTreeNode) : Min3RTA :=
  { st with nodes := dictSet st.nodes node_id node }

/-- Source `Min3RTA.create_node` (lines 257-264). -/
def createNode (st : Min3RTA) (is_accepting is_rejecting : Bool) : ℕ × Min3RTA :=
  let node_id := st.next_node_id
  let st := { st with
    nodes := dictSet st.nodes node_id
      { id := node_id, is_accepting := is_accepting, is_rejecting := is_rejecting },
    next_node_id := node_id + 1 }
  let st := if st.root = none then { st with root := some node_id } else st
  (node_id, st)

/-- Source `Min3RTA.get_real_node_id` (lines 266-270). -/
def getRealNodeId (st : Min3RTA) (node_id : ℕ) : ℕ :=
  match dictGet? st.register node_id with
  | some r => if r ≠ node_id then r else node_id
  | none => node_id

/-- Successor set of a node for one symbol, as used by `is_equivalent_to`
(Min3RTA.py lines 217-237): pairs of canonical target id and region.  The
source keys the set on `str(region)`; every region reachable here is built by
`add_suffix` from integer bounds or `∞`, for which string equality coincides
with structural equality of the region, so the pair uses the region itself. -/
def realSuccessors (st : Min3RTA) (node : RegionTreeNode) (symbol : String) :
    List (ℕ × Region) :=
  node.transitions.filterMap (fun p =>
    if p.1.1 = symbol then some (getRealNodeId st p.2, p.1.2) else none)

/-- Source `RegionTreeNode.is_equivalent_to` (Min3RTA.py lines 195-241):
equal accept/reject labels, equal outgoing symbol sets, and for each symbol
equal sets of (canonical target id, region) pairs. -/
def isEquivalent (st : Min3RTA) (self other : RegionTreeNode) : Bool :=
  if self.is_accepting ≠ other.is_accepting ∨ self.is_rejecting ≠ other.is_rejecting then
    false
  else
    let self_symbols := self.transitions.map (fun p => p.1.1)
    let other_symbols := other.transitions.map (fun p => p.1.1)
    if ¬ listSetEq self_symbols other_symbols then false
    else
      self_symbols.all (fun symbol =>
        listSetEq (realSuccessors st self symbol) (realSuccessors st other symbol))

/-- Replace the first occurrence of `old` in a list (Python
`children[children.index(old)] = new`, guarded by `old in children`). -/
def replaceFirst (l : List ℕ) (old new : ℕ) : List ℕ :=
  match l with
  | [] => []
  | x :: rest => if x = old then new :: rest else x :: replaceFirst rest old new

/-- Source `RegionTreeNode.replace_last_child` (Min3RTA.py lines 179-193):
mark the new target merged, redirect every transition aimed at the current
last child to the new target, and overwrite the first matching children slot. -/
def replaceLastChild (st : Min3RTA) (parent_id new_id : ℕ) : Min3RTA :=
  match getNode st parent_id with
  | none => st
  | some parent0 =>
    if parent0.children.isEmpty then st
    else
      let st1 :=
        match getNode st new_id with
        | some n => setNode st new_id { n with is_merged := true }
        | none => st
      match getNode st1 parent_id with
      | none => st1
      | some parent =>
        match parent.children.getLast? with
        | none => st1
        | some old =>
          setNode st1 parent_id
            { parent with
              transitions := parent.transitions.map
                (fun p => if p.2 = old then (p.1, new_id) else p),
              children := replaceFirst parent.children old new_id }

/-- Inner loop of `Min3RTA._merge_node_transitions` (lines 442-458) over a
snapshot of the target node's transitions.  The source computes
`_merge_regions` and immediately overwrites it with `None` (line 447), so the
loop always `continue`s and returns `none` (`has_transition` stays false); the
merge branch is kept for fidelity but is unreachable. -/
def mergeInner (st : Min3RTA) (symbol : String) (region : Region)
    (real_next_id : ℕ) (target : RegionTreeNode) :
    List ((String × Region) × ℕ) → Option RegionTreeNode
  | [] => none
  | ((t_sym, t_region), t_next) :: rest =>
    if t_sym = symbol ∧ getRealNodeId st t_next = real_next_id then
      let _merged_attempt := mergeRegions t_region region   -- line 446
      let merged_region : Option Region := none             -- line 447: `merged_region = None`
      match merged_region with
      | none => mergeInner st symbol region real_next_id target rest   -- `continue`
      | some m =>
        let newTrans := dictSet (dictDelete target.transitions (t_sym, t_region)) (t_sym, m) t_next
        some { target with transitions := newTrans }
    else mergeInner st symbol region real_next_id target rest

/-- Outer loop of `Min3RTA._merge_node_transitions` (lines 436-465) over a
snapshot of the source node's transitions. -/
def mergeOuter (st : Min3RTA) (target_id : ℕ) :
    List ((String × Region) × ℕ) → Min3RTA
  | [] => st
  | ((symbol, region), next_id) :: rest =>
    let real_next_id := getRealNodeId st next_id
    match getNode st target_id with
    | none => mergeOuter st target_id rest
    | some target =>
      match mergeInner st symbol region real_next_id target target.transitions with
      | some target' => mergeOuter (setNode st target_id target') target_id rest
      | none =>
        let target' :=
          { target with
            transitions := dictSet target.transitions (symbol, region) real_next_id,
            children :=
              if real_next_id ∈ target.children then target.children
              else target.children ++ [real_next_id] }
        mergeOuter (setNode st target_id target') target_id rest

/-- Source `Min3RTA._merge_node_transitions` (Min3RTA.py lines 423-465).
Returns the updated state together with the Python return value:
`some false` on an accept/reject label conflict (line 433 `return False`), and
`none` otherwise, because the source function ends without a `return`
statement and therefore returns Python `None` on the success path. -/
def mergeNodeTransitions (st : Min3RTA) (source_id target_id : ℕ) :
    Min3RTA × Option Bool :=
  match getNode st source_id, getNode st target_id with
  | some source, some target =>
    if source.is_accepting ≠ target.is_accepting ∨
       source.is_rejecting ≠ target.is_rejecting then
      (st, some false)
    else
      (mergeOuter st target_id source.transitions, none)
  | _, _ => (st, none)

/-- Register scan of `replace_or_register` (Min3RTA.py lines 395-399): first
key of `self.register` whose node is equivalent to the child. -/
def findEquivalent (st : Min3RTA) (child : RegionTreeNode) :
    List (ℕ × ℕ) → Option ℕ
  | [] => none
  | (reg_id, _) :: rest =>
    match getNode st reg_id with
    | some regNode =>
      if isEquivalent st child regNode then some reg_id
      else findEquivalent st child rest
    | none => findEquivalent st child rest

/-- Source `Min3RTA.replace_or_register` (Min3RTA.py lines 363-421).  The
source's recursion-depth guard (`depth > 1000` with `depth` counting up from 0)
is represented structurally by the remaining fuel `1001 - depth`, so the
top-level call passes fuel `1001`; the visited set is threaded as a list.
After a register hit the child is replaced and registered, then
`_merge_node_transitions` runs; its result is truthy only for `True`, so the
registration is rolled back whenever the result is `False` or `None`
(Python `if not merge_success`). -/
def replaceOrRegister : Min3RTA → ℕ → List ℕ → ℕ → Min3RTA
  | st, _, _, 0 => st
  | st, state_id, visited, fuel + 1 =>
    if state_id ∈ visited then st
    else
      let visited' := state_id :: visited
      match getNode st state_id with
      | none => st
      | some node =>
        match node.children.getLast? with
        | none => st
        | some child_id =>
          match getNode st child_id with
          | none => st
          | some child =>
            let st1 :=
              if child.children ≠ [] then
                replaceOrRegister st child_id visited' fuel
              else st
            match getNode st1 child_id with
            | none => st1
            | some child1 =>
              match findEquivalent st1 child1 st1.register with
              | some registered_id =>
                let st2 := replaceLastChild st1 state_id registered_id
                let st3 := { st2 with register := dictSet st2.register child_id registered_id }
                let merged := mergeNodeTransitions st3 child_id registered_id
                if merged.2 ≠ some true then
                  let st5 := { merged.1 with register := dictDelete merged.1.register child_id }
                  replaceLastChild st5 state_id child_id
                else merged.1
              | none =>
                { st1 with register := dictSet st1.register child_id child_id }

/-- Suffix loop of `Min3RTA.add_suffix` (Min3RTA.py lines 314-355): map each
remaining event's time to a region via `suffixRegion`, create a fresh node and
transition, then mark the final node accept or reject (lines 357-361). -/
def addSuffixFrom (st : Min3RTA) (current_id : ℕ)
    (events : List (String × ℚ)) (is_positive : Bool) (max_time : ℚ) : Min3RTA :=
  match events with
  | [] =>
    match getNode st current_id with
    | none => st
    | some node =>
      if is_positive then setNode st current_id { node with is_accepting := true }
      else setNode st current_id { node with is_rejecting := true }
  | (symbol, time) :: rest =>
    let region := suffixRegion time max_time
    let created := createNode st false false
    let st2 :=
      match getNode created.2 current_id with
      | none => created.2
      | some node => setNode created.2 current_id (node.add_transition symbol region created.1)
    addSuffixFrom st2 created.1 rest is_positive max_time

/-- Source `Min3RTA.add_suffix` (Min3RTA.py lines 311-361): iterate from
`from_index` to the end of the sample. -/
def add_suffix (st : Min3RTA) (current_id : ℕ) (sample : List (String × ℚ))
    (from_index : ℕ) (is_positive : Bool) (max_time : ℚ) : Min3RTA :=
  addSuffixFrom st current_id (sample.drop from_index) is_positive max_time

/-! ### Conflict resolution (Min3RTA.py lines 786-827) -/

/-- Resolution outcome of `_resolve_conflict_by_time_patterns`. -/
inductive Resolution where
  | accepting
  | rejecting
deriving DecidableEq

/-- Second timestamps of the length-2 samples in a list, as collected by
`_resolve_conflict_by_time_patterns` (lines 805-812). -/
def lengthTwoSecondTimes (samples : List (List (String × ℚ))) : List ℚ :=
  samples.filterMap (fun s => if s.length = 2 then (s[1]?).map Prod.snd else none)

/-- Source `_resolve_conflict_by_time_patterns` (Min3RTA.py lines 786-827):
default to rejecting with no samples, take the non-empty side's label when one
side is empty, fall back to a majority vote when either side has no length-2
sample, and otherwise compare the means of the second timestamps with the
factor 1.5. -/
def resolveConflictByTimePatterns
    (positive_samples negative_samples : List (List (String × ℚ))) : Resolution :=
  if positive_samples = [] ∧ negative_samples = [] then .rejecting
  else if positive_samples = [] then .rejecting
  else if negative_samples = [] then .accepting
  else
    let pos_second_times := lengthTwoSecondTimes positive_samples
    let neg_second_times := lengthTwoSecondTimes negative_samples
    if pos_second_times = [] ∨ neg_second_times = [] then
      if positive_samples.length ≥ negative_samples.length then .accepting else .rejecting
    else
      let pos_avg := pos_second_times.sum / (pos_second_times.length : ℚ)
      let neg_avg := neg_second_times.sum / (neg_second_times.length : ℚ)
      if pos_avg > neg_avg * (3/2) then .accepting else .rejecting

/-! ### Encoding.py: the colour-0 accepting hard constraint -/

/-- SMT variables of the encoder (`Encoding.py`): node-colour, accepting-colour,
transition and used-colour variables. -/
inductive EncVar where
  | color_node (n c : ℕ)
  | color_accepting (c : ℕ)
  | trans (symbol : ℕ) (region : String) (c1 c2 : ℕ)
  | color_used (c : ℕ)
deriving DecidableEq

/-- Boolean formulas over encoder variables, as passed to the solver. -/
inductive ZExpr where
  | var (v : EncVar)
  | notE (e : ZExpr)
  | andE (a b : ZExpr)
  | orE (a b : ZExpr)
  | impliesE (a b : ZExpr)
deriving DecidableEq

/-- Evaluation of a formula under an assignment of the encoder variables. -/
def ZExpr.eval (v : EncVar → Bool) : ZExpr → Bool
  | .var x => v x
  | .notE e => !(e.eval v)
  | .andE a b => a.eval v && b.eval v
  | .orE a b => a.eval v || b.eval v
  | .impliesE a b => !(a.eval v) || b.eval v

/-- Source `Encoding.generate_color_zero_accepting_constraint` (Encoding.py
lines 179-194): the list of hard constraints the method adds to the solver.
When `positive_samples` is not `None` and non-empty it asserts the variable
`color_accepting 0`; otherwise it adds nothing. -/
def generateColorZeroAcceptingConstraint
    (positive_samples : Option (List (List (String × ℚ)))) : List ZExpr :=
  match positive_samples with
  | some ps => if ps.length > 0 then [ZExpr.var (.color_accepting 0)] else []
  | none => []

/-! ### test_encoding.py: the verifier (`simulate_drta_execution`) -/

/-- Region tuples `(lower, upper, lower_closed, upper_closed)` of
`test_encoding.py`.  The lower bound is a rational: every region reachable in
the optimiser and the verifier has a finite lower bound (only a malformed
region string could produce `-inf`, and none is generated). -/
structure RTup where
  lower : ℚ
  upper : WithTop ℚ
  lower_closed : Bool
  upper_closed : Bool
deriving DecidableEq

/-- Source `is_timestamp_in_region` (test_encoding.py lines 668-697):
early-return bound checks. -/
def isTimestampInRegion (timestamp : ℚ) (region : RTup) : Bool :=
  if region.lower_closed then
    if timestamp < region.lower then false
    else
      if region.upper_closed then
        if (timestamp : WithTop ℚ) > region.upper then false else true
      else
        if (timestamp : WithTop ℚ) ≥ region.upper then false else true
  else
    if timestamp ≤ region.lower then false
    else
      if region.upper_closed then
        if (timestamp : WithTop ℚ) > region.upper then false else true
      else
        if (timestamp : WithTop ℚ) ≥ region.upper then false else true

/-- Optimised transitions `{(state_from, symbol): {target: [regions]}}` as
returned by `optimize_transitions_new`. -/
def OptimizedTransitions : Type :=
  List ((ℕ × String) × List (ℕ × List RTup))

/-- Transition-candidate collection of `simulate_drta_execution` (lines
629-636): one entry per matching `(target, region)` with the timestamp inside
the region, in iteration order. -/
def possibleTransitions (ot : OptimizedTransitions) (current : ℕ)
    (symbol_id : String) (timestamp : ℚ) : List ℕ :=
  ot.flatMap (fun p =>
    if p.1.1 = current ∧ p.1.2 = symbol_id then
      p.2.flatMap (fun tr =>
        (tr.2.filter (fun region => isTimestampInRegion timestamp region)).map
          (fun _ => tr.1))
    else [])

/-- Result record of `simulate_drta_execution`: acceptance flag and the path of
visited states (the `reason` string is not modelled). -/
structure SimResult where
  accepted : Bool
  path : List ℕ
deriving DecidableEq

/-- Symbol-to-id map of `simulate_drta_execution` (lines 612-614): the
alphabet with each id rendered as its decimal string. -/
def symbolToId (alphabet : List (String × ℕ)) (symbol : String) : Option String :=
  (dictGet? alphabet symbol).map (fun n => toString n)

/-- Event loop of `simulate_drta_execution` (test_encoding.py lines 617-666):
reject on an unknown symbol, on no enabled transition, or on more than one
enabled transition, in each case returning the partial path; otherwise step to
the unique target and continue; at the end accept iff the current state is an
accepting colour. -/
def simulateFrom (ot : OptimizedTransitions) (accepting_colors : List ℕ)
    (alphabet : List (String × ℕ)) :
    List (String × ℚ) → ℕ → List ℕ → SimResult
  | [], current, path => ⟨decide (current ∈ accepting_colors), path⟩
  | (symbol, timestamp) :: rest, current, path =>
    match symbolToId alphabet symbol with
    | none => ⟨false, path⟩
    | some symbol_id =>
      match possibleTransitions ot current symbol_id timestamp with
      | [] => ⟨false, path⟩
      | [t] => simulateFrom ot accepting_colors alphabet rest t (path ++ [t])
      | _ :: _ :: _ => ⟨false, path⟩

/-- Source `simulate_drta_execution` (test_encoding.py lines 586-666): an empty
sample is accepted iff colour 0 is accepting; otherwise run the event loop from
state 0 with path `[0]`. -/
def simulateDrtaExecution (sample : List (String × ℚ)) (ot : OptimizedTransitions)
    (accepting_colors : List ℕ) (alphabet : List (String × ℕ)) : SimResult :=
  if sample = [] then ⟨decide (0 ∈ accepting_colors), [0]⟩
  else simulateFrom ot accepting_colors alphabet sample 0 [0]

/-! ### test_encoding.py: the region-partition optimiser -/

/-- Stable insertion into a list sorted by `le` (new element goes after equal
elements), used to model Python's stable `sorted`/`sort`. -/
def insertSorted {α : Type} (le : α → α → Bool) (x : α) : List α → List α
  | [] => [x]
  | y :: ys => if le y x then y :: insertSorted le x ys else x :: y :: ys

/-- Stable sort by `le`, modelling Python's `sorted` (stable). -/
def stableSort {α : Type} (le : α → α → Bool) (l : List α) : List α :=
  l.foldl (fun acc x => insertSorted le x acc) []

/-- Region sort key `(r[0], 0 if r[2] else 1)` used throughout
`test_encoding.py`: ascending lower bound, closed lower bounds first. -/
def regionSortLE (a b : RTup) : Bool :=
  decide (a.lower < b.lower) ||
  (decide (a.lower = b.lower) &&
    decide ((if a.lower_closed then (0 : ℕ) else 1) ≤ (if b.lower_closed then 0 else 1)))

/-- Sorting a region list by the standard key. -/
def sortRegions (l : List RTup) : List RTup := stableSort regionSortLE l

/-- Exact-point test `lower == upper and lower_closed and upper_closed`. -/
def isPointRTup (r : RTup) : Bool :=
  decide ((r.lower : WithTop ℚ) = r.upper) && r.lower_closed && r.upper_closed

/-- Three-way membership check of a point in interval bounds, as written at
test_encoding.py lines 901-907, 1043-1058 and 1160-1167. -/
def pointInFlags (lower : ℚ) (upper : WithTop ℚ) (lcl ucl : Bool) (point : ℚ) : Bool :=
  (decide (lower < point) && decide ((point : WithTop ℚ) < upper)) ||
  (decide (lower = point) && lcl) ||
  (decide (upper = (point : WithTop ℚ)) && ucl)

/-- Membership of a point in a region tuple. -/
def pointInRTup (r : RTup) (point : ℚ) : Bool :=
  pointInFlags r.lower r.upper r.lower_closed r.upper_closed point

/-- Source `find_gaps` (test_encoding.py lines 1305-1348) on a sorted region
list: the whole axis when empty; an initial gap when the first region starts
above 0 (none when it starts at 0, even left-open); gaps between consecutive
regions, including a point gap when both neighbouring bounds exclude the
shared point; and a final gap when the last region is bounded. -/
def findGaps (regions : List RTup) : List RTup :=
  match regions with
  | [] => [⟨0, ⊤, true, false⟩]
  | first :: _ =>
    let gaps0 : List RTup :=
      if first.lower > 0 then [⟨0, (first.lower : WithTop ℚ), true, !first.lower_closed⟩]
      else []
    let mids : List RTup :=
      (regions.zip regions.tail).filterMap (fun pr =>
        match pr.1.upper with
        | ⊤ => none
        | some cu =>
          if cu < pr.2.lower then
            some ⟨cu, (pr.2.lower : WithTop ℚ), !pr.1.upper_closed, !pr.2.lower_closed⟩
          else if cu = pr.2.lower ∧ ¬(pr.1.upper_closed ∧ pr.2.lower_closed) then
            if ¬pr.1.upper_closed ∧ ¬pr.2.lower_closed then
              some ⟨cu, (cu : WithTop ℚ), true, true⟩
            else none
          else none)
    let endGaps : List RTup :=
      match regions.getLast? with
      | none => []
      | some lastR =>
        match lastR.upper with
        | ⊤ => []
        | some u => [⟨u, ⊤, !lastR.upper_closed, false⟩]
    gaps0 ++ mids ++ endGaps

/-- Valid-gap filter `not (gap[0] == gap[1] and (not gap[2] or not gap[3]))`
(test_encoding.py lines 822 and 853). -/
def validGaps (gaps : List RTup) : List RTup :=
  gaps.filter (fun g =>
    !(decide ((g.lower : WithTop ℚ) = g.upper) && (!g.lower_closed || !g.upper_closed)))

/-- Source `split_region_around_points` (test_encoding.py lines 1192-1249):
collect strictly interior conflict points while opening the boundary closures
hit by conflict points, then cut the interval at each interior point with
open sub-interval ends, finally dropping empty pieces. -/
def splitRegionAroundPoints (region : RTup) (conflict_points : List ℚ) : List RTup :=
  if conflict_points = [] then [region]
  else
    let step := conflict_points.foldl
      (fun (acc : List ℚ × Bool × Bool) point =>
        if region.lower < point ∧ (point : WithTop ℚ) < region.upper then
          (acc.1 ++ [point], acc.2)
        else if point = region.lower ∧ acc.2.1 then
          (acc.1, false, acc.2.2)
        else if (point : WithTop ℚ) = region.upper ∧ acc.2.2 then
          (acc.1, acc.2.1, false)
        else acc)
      ([], region.lower_closed, region.upper_closed)
    let internal_points := step.1
    let lower_closed := step.2.1
    let upper_closed := step.2.2
    if internal_points = [] then
      if (region.lower : WithTop ℚ) < region.upper ∨
         ((region.lower : WithTop ℚ) = region.upper ∧ lower_closed ∧ upper_closed) then
        [⟨region.lower, region.upper, lower_closed, upper_closed⟩]
      else []
    else
      let sorted_points := stableSort (fun a b => decide (a ≤ b)) internal_points
      let split := sorted_points.foldl
        (fun (acc : List RTup × ℚ × Bool) point =>
          let pieces :=
            if acc.2.1 < point ∨ (acc.2.1 = point ∧ acc.2.2) then
              acc.1 ++ [⟨acc.2.1, (point : WithTop ℚ), acc.2.2, false⟩]
            else acc.1
          (pieces, point, false))
        ([], region.lower, lower_closed)
      let pieces :=
        if (split.2.1 : WithTop ℚ) < region.upper ∨
           ((split.2.1 : WithTop ℚ) = region.upper ∧ split.2.2 ∧ upper_closed) then
          split.1 ++ [⟨split.2.1, region.upper, split.2.2, upper_closed⟩]
        else split.1
      pieces.filter (fun r =>
        decide ((r.lower : WithTop ℚ) < r.upper) ||
        (decide ((r.lower : WithTop ℚ) = r.upper) && r.lower_closed && r.upper_closed))

/-- Protected-point screen of `merge_adjacent_regions_protected`
(test_encoding.py lines 1032-1063): a merge of two neighbours is vetoed when
the (tie-unaware) merged bounds would swallow a protected point of another
target colour that neither neighbour already contains. -/
def mergeProtectCheck (protected_points : List (ℚ × ℕ)) (target_color : ℕ)
    (r1 r2 : RTup) : Bool :=
  protected_points.all (fun pp =>
    if pp.2 ≠ target_color then
      let merged_lower := min r1.lower r2.lower
      let merged_upper := max r1.upper r2.upper
      let merged_lower_closed :=
        if merged_lower = r1.lower then r1.lower_closed else r2.lower_closed
      let merged_upper_closed :=
        if merged_upper = r1.upper then r1.upper_closed else r2.upper_closed
      let point_in_merged :=
        pointInFlags merged_lower merged_upper merged_lower_closed merged_upper_closed pp.1
      let point_in_r1 := pointInRTup r1 pp.1
      let point_in_r2 := pointInRTup r2 pp.1
      !(point_in_merged && !point_in_r1 && !point_in_r2)
    else true)

/-- While-loop of `merge_adjacent_regions_protected` (test_encoding.py lines
1022-1102).  Each iteration either merges slot `i` with slot `i+1` (shrinking
the list) or advances `i`, so `2 * length + 1` fuel always suffices; the fuel
argument only makes the recursion structural. -/
def mergeAdjacentLoop (protected_points : List (ℚ × ℕ)) (target_color : ℕ) :
    ℕ → List RTup → ℕ → List RTup
  | 0, regions, _ => regions
  | fuel + 1, regions, i =>
    if i < regions.length - 1 then
      match regions[i]?, regions[i+1]? with
      | some r1, some r2 =>
        let can_merge0 := mergeProtectCheck protected_points target_color r1 r2
        let can_merge :=
          if can_merge0 then
            decide ((r2.lower : WithTop ℚ) < r1.upper) ||
            (decide ((r2.lower : WithTop ℚ) = r1.upper) &&
              (r1.upper_closed || r2.lower_closed)) ||
            (match r1.upper with
             | ⊤ => false
             | some u1 => decide (|r2.lower - u1| < 1/10000000000))
          else false
        if can_merge then
          let new_lower := min r1.lower r2.lower
          let new_upper := max r1.upper r2.upper
          let nlc0 := if new_lower = r1.lower then r1.lower_closed else r2.lower_closed
          let nuc0 := if new_upper = r1.upper then r1.upper_closed else r2.upper_closed
          let nlc := if r1.lower = r2.lower then r1.lower_closed || r2.lower_closed else nlc0
          let nuc := if r1.upper = r2.upper then r1.upper_closed || r2.upper_closed else nuc0
          mergeAdjacentLoop protected_points target_color fuel
            ((regions.set i ⟨new_lower, new_upper, nlc, nuc⟩).eraseIdx (i+1)) i
        else
          mergeAdjacentLoop protected_points target_color fuel regions (i+1)
      | _, _ => regions
    else regions

/-- Source `merge_adjacent_regions_protected` (test_encoding.py lines
1010-1102): no-op on lists of length at most one, otherwise run the loop. -/
def mergeAdjacentRegionsProtected (regions : List RTup)
    (protected_points : List (ℚ × ℕ)) (target_color : ℕ) : List RTup :=
  if regions.length ≤ 1 then regions
  else mergeAdjacentLoop protected_points target_color (2 * regions.length + 1) regions 0

/-- Source `optimize_regions_with_solver` (test_encoding.py lines 1104-1190):
collect exact points per value, resolve multiply-claimed points to the lowest
colour id, keep protected points only for their owner, split other colours'
intervals around foreign protected points, then sort and merge per colour. -/
def optimizeRegionsWithSolver (by_target : List (ℕ × List RTup)) :
    List (ℕ × List RTup) :=
  let point_intervals : List (ℚ × List ℕ) :=
    by_target.foldl (fun acc p =>
      p.2.foldl (fun acc region =>
        if isPointRTup region then
          dictSet acc region.lower (((dictGet? acc region.lower).getD []) ++ [p.1])
        else acc) acc) []
  let protected_points : List (ℚ × ℕ) :=
    point_intervals.foldl (fun acc pi =>
      match pi.2 with
      | [] => acc
      | c :: rest =>
        if rest ≠ [] then dictSet acc pi.1 (rest.foldl min c)
        else dictSet acc pi.1 c) []
  let optimized : List (ℕ × List RTup) :=
    by_target.map (fun p =>
      let processed := p.2.foldl (fun acc region =>
        if isPointRTup region then
          if dictGet? protected_points region.lower = some p.1 then acc ++ [region]
          else acc
        else
          let conflicts := protected_points.filterMap (fun pp =>
            if pp.2 ≠ p.1 ∧ pointInRTup region pp.1 then some pp.1 else none)
          if conflicts = [] then acc ++ [region]
          else acc ++ splitRegionAroundPoints region conflicts) []
      (p.1, processed))
  optimized.map (fun p =>
    if p.2.length > 1 then
      (p.1, mergeAdjacentRegionsProtected (sortRegions p.2) protected_points p.1)
    else p)

/-- Skip test for truly empty point gaps (test_encoding.py line 894). -/
def skipGap (gap : RTup) : Bool :=
  decide ((gap.lower : WithTop ℚ) = gap.upper) && !(gap.lower_closed && gap.upper_closed)

/-- Protected points lying inside a gap (test_encoding.py lines 898-910);
every protected point is checked regardless of its owning colour. -/
def gapConflicts (gap : RTup) (protected_points : List (ℚ × ℕ)) : List ℚ :=
  protected_points.filterMap (fun pp =>
    if pointInRTup gap pp.1 then some pp.1 else none)

/-- Adjacency scores per colour for one gap (test_encoding.py lines 925-958):
2 for a region ending at the gap's lower bound (with a connectable boundary),
plus 1 for a region starting at the gap's upper bound; each colour keeps its
highest score. -/
def colorMatches (opt : List (ℕ × List RTup)) (gap : RTup) : List (ℕ × ℤ) :=
  opt.foldl (fun cm p =>
    p.2.foldl (fun cm region =>
      let lower_match :=
        decide (region.upper = (gap.lower : WithTop ℚ)) &&
        (region.upper_closed || gap.lower_closed)
      let upper_match :=
        decide ((region.lower : WithTop ℚ) = gap.upper) &&
        (region.lower_closed || gap.upper_closed)
      let match_score : ℤ :=
        (if lower_match then 2 else 0) + (if upper_match then 1 else 0)
      if match_score > 0 then
        match dictGet? cm p.1 with
        | none => dictSet cm p.1 match_score
        | some s => if match_score > s then dictSet cm p.1 match_score else cm
      else cm) cm) []

/-- Best-colour selection over the match scores (test_encoding.py lines
960-970): highest score wins, ties go to the colour with fewer regions. -/
def bestMatchColor (opt : List (ℕ × List RTup)) (cm : List (ℕ × ℤ)) : Option ℕ :=
  (cm.foldl (fun (acc : Option ℕ × ℤ) p =>
    if p.2 > acc.2 then (some p.1, p.2)
    else if p.2 = acc.2 then
      match acc.1 with
      | some bc =>
        if ((dictGet? opt p.1).getD []).length < ((dictGet? opt bc).getD []).length then
          (some p.1, acc.2)
        else acc
      | none => acc
    else acc) ((none : Option ℕ), (-1 : ℤ))).1

/-- Gap-to-region distance of the fallback search (test_encoding.py lines
978-989). -/
def gapDistance (gap region : RTup) : ℚ :=
  if gap.upper ≤ (region.lower : WithTop ℚ) then
    region.lower - WithTop.untop' 0 gap.upper
  else if (gap.lower : WithTop ℚ) ≥ region.upper then
    gap.lower - WithTop.untop' 0 region.upper
  else 0

/-- Minimum-distance fallback colour (test_encoding.py lines 972-993). -/
def closestColor (opt : List (ℕ × List RTup)) (gap : RTup) : Option ℕ :=
  (opt.foldl (fun (acc : Option ℕ × WithTop ℚ) p =>
    p.2.foldl (fun (acc : Option ℕ × WithTop ℚ) region =>
      let distance := gapDistance gap region
      if (distance : WithTop ℚ) < acc.2 then (some p.1, (distance : WithTop ℚ))
      else acc) acc) ((none : Option ℕ), (⊤ : WithTop ℚ))).1

/-- Assignment of one conflict-free gap (test_encoding.py lines 919-1008):
close the gap at 0 when it starts there, pick the best adjacent colour (or the
distance fallback, or the colour with fewest regions), append the gap to that
colour, re-sort and run the protected merge. -/
def assignGap (opt : List (ℕ × List RTup)) (gap : RTup)
    (protected_points : List (ℚ × ℕ)) (target_colors : List ℕ) :
    List (ℕ × List RTup) :=
  let gap :=
    if gap.lower = 0 ∧ gap.lower_closed = false then
      { gap with lower_closed := true }
    else gap
  let cm := colorMatches opt gap
  let best_color : Option ℕ :=
    match bestMatchColor opt cm with
    | some bc => some bc
    | none =>
      match closestColor opt gap with
      | some c => some c
      | none => target_colors.head?
  match best_color with
  | none => opt
  | some bc =>
    let newRegs := sortRegions (((dictGet? opt bc).getD []) ++ [gap])
    let newRegs := mergeAdjacentRegionsProtected newRegs protected_points bc
    dictSet opt bc newRegs

/-- Source `fill_gaps_in_regions_protected` (test_encoding.py lines 870-1008).
Gaps containing protected points are split around them and the pieces handled
by a recursive call; the recursion depth is bounded by 2 because split pieces
contain no protected point, so any fuel of at least
`protected_points.length + 2` reproduces the Python behaviour; the fuel only
makes the recursion structural.  The fallback colour list (keys sorted by
region count) is computed once per call, before any gap is processed. -/
def fillGapsProtected : ℕ → List (ℕ × List RTup) → List RTup → List (ℚ × ℕ) →
    List (ℕ × List RTup)
  | 0, opt, _, _ => opt
  | fuel + 1, opt, gaps, protected_points =>
    if gaps = [] then opt
    else if opt = [] then opt
    else
      let target_colors := stableSort
        (fun c1 c2 =>
          decide (((dictGet? opt c1).getD []).length ≤ ((dictGet? opt c2).getD []).length))
        (opt.map Prod.fst)
      gaps.foldl (fun opt gap =>
        if skipGap gap then opt
        else
          let conflicts := gapConflicts gap protected_points
          if conflicts ≠ [] then
            fillGapsProtected fuel opt (splitRegionAroundPoints gap conflicts)
              protected_points
          else assignGap opt gap protected_points target_colors) opt

/-- Parsed transition record of `optimize_transitions_new` (test_encoding.py
lines 709-730): symbol, region, source colour and target colour.  The
string-parsing prelude over the solver's variable names (`trans.split('_')`
and `parse_region`) is elided; the embedding takes the parsed list. -/
structure ParsedTransition where
  symbol : String
  region : RTup
  color_from : ℕ
  color_to : ℕ
deriving DecidableEq

/-- Source `optimize_transitions_new` (test_encoding.py lines 699-868) from the
parsed transition list onward: group by (source colour, symbol); with a single
target colour emit `[0,∞)` (or `(0,∞)` when 0 is protected for another
colour), otherwise sort per target and run the solver-based optimiser; then
compute the gaps of the union and fill them with protection.  The overlap
check of lines 805-815 and the post-fill re-check of lines 845-858 only feed
commented-out prints and are omitted. -/
def optimizeTransitionsNew (parsed_transitions : List ParsedTransition) :
    List ((ℕ × String) × List (ℕ × List RTup)) :=
  let transitions_by_source : List ((ℕ × String) × List ParsedTransition) :=
    parsed_transitions.foldl (fun acc t =>
      dictSet acc (t.color_from, t.symbol)
        (((dictGet? acc (t.color_from, t.symbol)).getD []) ++ [t])) []
  transitions_by_source.foldl (fun all_opt grp =>
    let color_from := grp.1.1
    let symbol := grp.1.2
    let by_target : List (ℕ × List ParsedTransition) :=
      grp.2.foldl (fun acc t =>
        dictSet acc t.color_to (((dictGet? acc t.color_to).getD []) ++ [t])) []
    let optimized_regions : List (ℕ × List RTup) :=
      if by_target.length = 1 then
        let color_to := ((by_target.head?).map Prod.fst).getD 0
        let protected0 : List (ℚ × ℕ) :=
          parsed_transitions.foldl (fun pp t =>
            if (t.color_from, t.symbol) = (color_from, symbol) then
              if isPointRTup t.region ∧ t.region.lower = 0 then
                dictSet pp (0 : ℚ) t.color_to
              else pp
            else pp) []
        let zero_closed : Bool :=
          decide (dictGet? protected0 0 = none) ||
          decide (dictGet? protected0 0 = some color_to)
        [(color_to, [⟨0, ⊤, zero_closed, false⟩])]
      else
        optimizeRegionsWithSolver
          (by_target.map (fun p => (p.1, sortRegions (p.2.map (fun t => t.region)))))
    let all_regions :=
      sortRegions (optimized_regions.foldl (fun acc p => acc ++ p.2) [])
    let gaps := findGaps all_regions
    let valid_gaps := validGaps gaps
    let protected_points : List (ℚ × ℕ) :=
      parsed_transitions.foldl (fun pp t =>
        if (t.color_from, t.symbol) = (color_from, symbol) ∧ isPointRTup t.region then
          dictSet pp t.region.lower t.color_to
        else pp) []
    let optimized_regions :=
      if valid_gaps ≠ [] then
        fillGapsProtected (protected_points.length + 2) optimized_regions valid_gaps
          protected_points
      else optimized_regions
    dictSet all_opt (color_from, symbol) optimized_regions) []

/-! ### DRTA.py: `accepts` -/

/-- Edge data of one parallel edge of the DRTA multigraph: the values of
`data.get('symbol')` and `data.get('region_obj')`. -/
structure DRTAEdgeData where
  symbol : Option String
  region_obj : Option Region
deriving DecidableEq

/-- The DRTA object as used by `accepts`: root, accepting-state set, and the
multigraph as an association of `(source, target)` to parallel-edge data. -/
structure DRTAGraph where
  root : ℕ
  accepting_states : List ℕ
  edges : List ((ℕ × ℕ) × List DRTAEdgeData)
deriving DecidableEq

/-- `graph.successors(u)`: targets of the outgoing edge entries of `u`. -/
def successors (g : DRTAGraph) (u : ℕ) : List ℕ :=
  (g.edges.filter (fun e => e.1.1 = u)).map (fun e => e.1.2)

/-- `graph.get_edge_data(u, v)`: parallel-edge data between two states. -/
def edgeData (g : DRTAGraph) (u v : ℕ) : List DRTAEdgeData :=
  (dictGet? g.edges (u, v)).getD []

/-- Step search of `accepts` (DRTA.py lines 570-586): first successor with an
edge whose symbol matches and whose region object exists and contains the
time. -/
def findTransitionTarget (g : DRTAGraph) (current : ℕ) (symbol : String)
    (time : ℚ) : Option ℕ :=
  (successors g current).findSome? (fun target =>
    match (edgeData g current target).find? (fun d =>
        decide (d.symbol = some symbol) &&
        (match d.region_obj with
         | some r => r.contains time
         | none => false)) with
    | some _ => some target
    | none => none)

/-- Word loop of `accepts`: reject as soon as no transition matches; at the end
accept iff the final state is accepting. -/
def acceptsFrom (g : DRTAGraph) : List (String × ℚ) → ℕ → Bool
  | [], current => decide (current ∈ g.accepting_states)
  | (symbol, time) :: rest, current =>
    match findTransitionTarget g current symbol time with
    | some target => acceptsFrom g rest target
    | none => false

/-- Source `accepts` (DRTA.py lines 553-593): the empty word is accepted iff
the root is accepting; otherwise run the word loop from the root. -/
def accepts (g : DRTAGraph) (word : List (String × ℚ)) : Bool :=
  if word = [] then decide (g.root ∈ g.accepting_states)
  else acceptsFrom g word g.root

/-! ### Concrete inputs used by the evaluation theorems -/

/-- SMT-selected transitions `trans_a_(0, 1)_0_1` and `trans_a_(2, ∞)_0_2`
after parsing: one group (colour 0, symbol a) with two target colours whose
regions are disjoint, as arises from the samples `[('a', 0.5)]` (positive) and
`[('a', 2.5)]` (negative). -/
def c1Input : List ParsedTransition :=
  [⟨"a", ⟨0, ((1:ℚ) : WithTop ℚ), false, false⟩, 0, 1⟩,
   ⟨"a", ⟨2, ⊤, false, false⟩, 0, 2⟩]

/-- Canonical node with a transition `('a', [0,1)) → 20`. -/
def c2Target : RegionTreeNode :=
  { id := 10, transitions := [(("a", ⟨0, ((1:ℚ) : WithTop ℚ), true, false⟩), 20)],
    children := [20] }

/-- Absorbed node with a transition `('a', [1,1]) → 20`: same symbol and same
target as the canonical node's transition, with mergeable regions. -/
def c2Source : RegionTreeNode :=
  { id := 11, transitions := [(("a", ⟨1, ((1:ℚ) : WithTop ℚ), true, true⟩), 20)],
    children := [20] }

/-- Arena holding the canonical node, the absorbed node and their common
target. -/
def c2State : Min3RTA :=
  { nodes := [(10, c2Target), (11, c2Source), (20, { id := 20 })],
    register := [], root := some 10, next_node_id := 21 }

/-- A Min3RTA state in which node 0's last child (node 2) is equivalent to the
registered node 1, with identical accept/reject labels on both. -/
def c3State : Min3RTA :=
  { nodes :=
      [(0, { id := 0,
             transitions := [(("a", ⟨0, ((0:ℚ) : WithTop ℚ), true, true⟩), 1),
                             (("a", ⟨1, ((1:ℚ) : WithTop ℚ), true, true⟩), 2)],
             children := [1, 2] }),
       (1, { id := 1, is_accepting := true }),
       (2, { id := 2, is_accepting := true })],
    register := [(1, 1)], root := some 0, next_node_id := 3 }

/-- Specification-side semantic predicate: the value passes a lower bound with
the given closure flag. -/
def boundOKLow {α : Type} [LinearOrder α] (a : α) (incl : Bool) (t : α) : Prop :=
  if incl then a ≤ t else a < t

/-- Specification-side semantic predicate: the value passes an upper bound
with the given closure flag. -/
def boundOKHigh {α : Type} [LinearOrder α] (u : α) (incl : Bool) (t : α) : Prop :=
  if incl then t ≤ u else t < u

/-- All timestamps occurring in a sample set, in traversal order. -/
def allTimes (S : List (List (String × ℚ))) : List ℚ :=
  S.flatMap (fun trace => trace.map Prod.snd)

/-- Specification-side description of the j-th canonical region for the bound
κ: `[0,0]` at position 0, `(i,i+1)` at position `2i+1`, `[i+1,i+1]` at
position `2i+2`, `(κ,∞)` at position `2κ+1`, nothing beyond. -/
def regionAt (kappa : ℕ) (j : ℕ) : Option Region :=
  if j = 0 then some ⟨0, ((0:ℚ) : WithTop ℚ), true, true⟩
  else if j = 2 * kappa + 1 then some ⟨(kappa : ℚ), ⊤, false, false⟩
  else if j < 2 * kappa + 1 then
    (if j % 2 = 1 then
      some ⟨((j / 2 : ℕ) : ℚ), (((j / 2 : ℕ) : ℚ) + 1 : ℚ), false, false⟩
     else
      some ⟨((j / 2 : ℕ) : ℚ), (((j / 2 : ℕ) : ℚ) : WithTop ℚ), true, true⟩)
  else none

end RTA

namespace RTA

/-- C1: evaluation of `optimize_transitions_new` at the SMT-selected
transitions `trans_a_(0, 1)_0_1`, `trans_a_(2, ∞)_0_2`.  The optimiser returns
the partition `{1 ↦ (0, 2], 2 ↦ (2, ∞)}` for the group (colour 0, symbol a):
no region of any target colour contains the time 0, so the union over all
targets is `(0, ∞)`, not `[0, ∞)` as the post-condition requires. -/
theorem C1_optimizer_misses_zero :
    optimizeTransitionsNew c1Input =
      [((0, "a"), [(1, [⟨0, ((2:ℚ) : WithTop ℚ), false, true⟩]),
                   (2, [⟨2, ⊤, false, false⟩])])] ∧
    ((optimizeTransitionsNew c1Input).foldl
        (fun acc p => p.2.foldl (fun acc q => acc ++ q.2) acc) []).all
      (fun r => !isTimestampInRegion 0 r) = true := by
  decide

/-- C2: when the canonical node already has a transition with the identical
symbol and the same target and the regions are mergeable (`[0,1)` and `[1,1]`
merge to `[0,1]`), `_merge_node_transitions` does not merge them: the computed
merge is discarded (`merged_region = None`) and the absorbed node's pair is
appended, leaving two separate transitions; `add_transition` behaves the same
way. -/
theorem C2_merge_is_disabled :
    mergeRegions ⟨0, ((1:ℚ) : WithTop ℚ), true, false⟩
        ⟨1, ((1:ℚ) : WithTop ℚ), true, true⟩ =
      some ⟨0, ((1:ℚ) : WithTop ℚ), true, true⟩ ∧
    (mergeNodeTransitions c2State 11 10).2 = none ∧
    (getNode (mergeNodeTransitions c2State 11 10).1 10).map
        (fun n => n.transitions) =
      some [(("a", ⟨0, ((1:ℚ) : WithTop ℚ), true, false⟩), 20),
            (("a", ⟨1, ((1:ℚ) : WithTop ℚ), true, true⟩), 20)] ∧
    (c2Target.add_transition "a" ⟨1, ((1:ℚ) : WithTop ℚ), true, true⟩ 20).transitions =
      [(("a", ⟨0, ((1:ℚ) : WithTop ℚ), true, false⟩), 20),
       (("a", ⟨1, ((1:ℚ) : WithTop ℚ), true, true⟩), 20)] := by
  decide

/-- C3: `_merge_node_transitions` never returns `True` (its success path falls
through, returning `None`), so `replace_or_register` rolls back every
registration.  Concretely, in `c3State` node 2 and the registered node 1 have
identical accept/reject labels and are equivalent, yet after
`replace_or_register` the register does not map 2 to 1: the rollback also ran
in the label-agreeing case. -/
theorem C3_rollback_even_on_agreeing_labels :
    (∀ (st : Min3RTA) (src tgt : ℕ),
      (mergeNodeTransitions st src tgt).2 = some false ∨
      (mergeNodeTransitions st src tgt).2 = none) ∧
    ((getNode c3State 1).map (fun n => (n.is_accepting, n.is_rejecting)) =
       some (true, false) ∧
     (getNode c3State 2).map (fun n => (n.is_accepting, n.is_rejecting)) =
       some (true, false)) ∧
    (match getNode c3State 2, getNode c3State 1 with
     | some a, some b => isEquivalent c3State a b
     | _, _ => false) = true ∧
    dictGet? (replaceOrRegister c3State 0 [] 1001).register 2 = none := by
  refine ⟨?_, by decide, by decide, by decide⟩
  intro st src tgt
  unfold mergeNodeTransitions
  rcases getNode st src with _ | source <;> rcases getNode st tgt with _ | target <;> simp
  split <;> simp

/-- C6: the encoder's `generate_color_zero_accepting_constraint` adds exactly
the hard constraint `z_0` when the positive-sample list is present and
non-empty, so every assignment satisfying all added constraints makes colour 0
accepting; with no positive samples (absent or empty) it adds nothing. -/
theorem C6_color_zero_accepting (ps : Option (List (List (String × ℚ)))) :
    (∀ l, ps = some l → l ≠ [] →
      generateColorZeroAcceptingConstraint ps = [ZExpr.var (.color_accepting 0)] ∧
      ∀ v : EncVar → Bool,
        (∀ c ∈ generateColorZeroAcceptingConstraint ps, c.eval v = true) →
        v (.color_accepting 0) = true) ∧
    (ps = none ∨ ps = some [] → generateColorZeroAcceptingConstraint ps = []) := by
  constructor
  · rintro l rfl hl
    have hlen : l.length > 0 := List.length_pos.mpr hl
    constructor
    · simp [generateColorZeroAcceptingConstraint, hlen]
    · intro v hv
      have := hv (ZExpr.var (.color_accepting 0))
        (by simp [generateColorZeroAcceptingConstraint, hlen])
      simpa [ZExpr.eval] using this
  · rintro (rfl | rfl) <;> simp [generateColorZeroAcceptingConstraint]

/-- C6 witness: with one positive sample the added constraint list is exactly
`[z_0]`. -/
theorem C6_witness :
    generateColorZeroAcceptingConstraint (some [[("a", 1)]]) =
      [ZExpr.var (.color_accepting 0)] :=
  ((C6_color_zero_accepting (some [[("a", 1)]])).1 [[("a", 1)]] rfl
    (by decide)).1

/-- C9: on the empty timed word, `accepts` returns true exactly when the DRTA
root is accepting, and `simulate_drta_execution` on the empty sample reports
accepted exactly when colour 0 is accepting. -/
theorem C9_empty_word :
    (∀ g : DRTAGraph, (accepts g [] = true ↔ g.root ∈ g.accepting_states)) ∧
    (∀ (ot : OptimizedTransitions) (acc : List ℕ) (alpha : List (String × ℕ)),
      ((simulateDrtaExecution [] ot acc alpha).accepted = true ↔ 0 ∈ acc)) := by
  constructor
  · intro g; simp [accepts]
  · intro ot acc alpha; simp [simulateDrtaExecution]

/-- C10: when more than one optimised transition is enabled for the next
event's symbol and timestamp, the event loop of `simulate_drta_execution`
stops without an error and returns `accepted = False` with the partial path. -/
theorem C10_multiple_transitions_reject (ot : OptimizedTransitions)
    (acc : List ℕ) (alpha : List (String × ℕ)) (symbol : String)
    (timestamp : ℚ) (rest : List (String × ℚ)) (current : ℕ) (path : List ℕ)
    (symbol_id : String)
    (hsym : symbolToId alpha symbol = some symbol_id)
    (hmulti : 2 ≤ (possibleTransitions ot current symbol_id timestamp).length) :
    simulateFrom ot acc alpha ((symbol, timestamp) :: rest) current path =
      ⟨false, path⟩ := by
  rcases hp : possibleTransitions ot current symbol_id timestamp with
    _ | ⟨a, _ | ⟨b, l⟩⟩
  · rw [hp] at hmulti; simp at hmulti
  · rw [hp] at hmulti; simp at hmulti
  · simp [simulateFrom, hsym, hp]

/-- C10 witness: two transitions of state 0 on symbol a are enabled at time 1,
and the run is classified rejected with the partial path `[0]`. -/
theorem C10_witness :
    simulateFrom
      [((0, "0"), [(1, [⟨0, ⊤, true, false⟩]), (2, [⟨0, ⊤, true, false⟩])])]
      [2] [("a", 0)] [("a", 1)] 0 [0] = ⟨false, [0]⟩ :=
  C10_multiple_transitions_reject
    [((0, "0"), [(1, [⟨0, ⊤, true, false⟩]), (2, [⟨0, ⊤, true, false⟩])])]
    [2] [("a", 0)] "a" 1 [] 0 [0] "0" (by decide) (by decide)

/-- C4: `_resolve_conflict_by_time_patterns` with reaching traces on both
sides, both having length-2 members, marks accepting exactly when the mean of
the positive second timestamps exceeds 1.5 times the negative mean; with only
one non-empty side it returns that side's label, and with both sides empty it
returns rejecting. -/
theorem C4_conflict_resolver (pos neg : List (List (String × ℚ))) :
    (pos ≠ [] → neg ≠ [] → lengthTwoSecondTimes pos ≠ [] →
      lengthTwoSecondTimes neg ≠ [] →
      (resolveConflictByTimePatterns pos neg = .accepting ↔
        (lengthTwoSecondTimes pos).sum / ((lengthTwoSecondTimes pos).length : ℚ) >
          (lengthTwoSecondTimes neg).sum / ((lengthTwoSecondTimes neg).length : ℚ) *
            (3/2))) ∧
    (pos ≠ [] → neg = [] → resolveConflictByTimePatterns pos neg = .accepting) ∧
    (pos = [] → neg ≠ [] → resolveConflictByTimePatterns pos neg = .rejecting) ∧
    (pos = [] → neg = [] → resolveConflictByTimePatterns pos neg = .rejecting) := by
  refine ⟨?_, ?_, ?_, ?_⟩
  · intro h1 h2 h3 h4
    rw [resolveConflictByTimePatterns]
    simp only [h1, h2, h3, h4, false_and, and_false, if_false, or_self, if_neg,
      not_false_eq_true]
    split_ifs with hgt
    · simp [hgt]
    · simp only [gt_iff_lt] at hgt
      constructor
      · intro h; cases h
      · intro h; exact absurd h hgt
  · intro h1 h2
    rw [resolveConflictByTimePatterns]
    simp [h1, h2]
  · intro h1 h2
    rw [resolveConflictByTimePatterns]
    simp [h1, h2]
  · intro h1 h2
    rw [resolveConflictByTimePatterns]
    simp [h1, h2]

/-- C4 witness: positives reach with second timestamp 5, negatives with 2;
since 5 > 1.5 · 2 the node is resolved accepting. -/
theorem C4_witness :
    resolveConflictByTimePatterns [[("a", 1), ("b", 5)]] [[("a", 1), ("b", 2)]] =
      .accepting :=
  ((C4_conflict_resolver [[("a", 1), ("b", 5)]] [[("a", 1), ("b", 2)]]).1
    (by decide) (by decide) (by decide) (by decide)).mpr (by decide)

/-- C5 counterexample: the integer time 3 with global sample maximum 3.0005 is
not equal to the maximum, yet `add_suffix` maps it to `[3, ∞)` rather than to
the exact point `[3, 3]` claimed for integer times other than the maximum,
because the source compares with the tolerance `abs(time - max_time) < 0.001`.
-/
theorem C5_counterexample :
    (3:ℚ) = ((pyInt 3 : ℤ) : ℚ) ∧
    (3:ℚ) ≠ 6001/2000 ∧
    suffixRegion 3 (6001/2000) ≠ ⟨3, ((3:ℚ) : WithTop ℚ), true, true⟩ ∧
    suffixRegion 3 (6001/2000) = ⟨3, ⊤, true, false⟩ := by decide

/-- C5 amended: with "equal to the global sample max" read as "within 0.001 of
the global sample max" (the source's tolerance), the mapping holds: a
near-maximal integer time yields `[t, ∞)`, any other integer time the exact
point `[t, t]`, a near-maximal non-integer time `(⌊t⌋, ∞)`, and any other
non-integer time `(⌊t⌋, ⌊t⌋+1)`, stated here through the containment
semantics of the produced region. -/
theorem C5_amended_mapping (time max_time x : ℚ) :
    (suffixRegion time max_time).contains x = true ↔
      (if |time - max_time| < 1/1000 then
        (if time = ((pyInt time : ℤ) : ℚ) then ((pyInt time : ℤ) : ℚ) ≤ x
         else ((pyInt time : ℤ) : ℚ) < x)
      else if time = ((pyInt time : ℤ) : ℚ) then x = time
      else (((pyInt time : ℤ) : ℚ) < x ∧ x < ((pyInt time : ℤ) : ℚ) + 1)) := by
  by_cases hi : time = ((pyInt time : ℤ) : ℚ)
  · by_cases hm : |time - max_time| < 1/1000
    · unfold suffixRegion
      simp only [if_pos hi, if_pos hm, Region.contains]
      simp [WithTop.coe_lt_top]
    · unfold suffixRegion
      simp only [if_pos hi, if_neg hm, Region.contains]
      simp only [if_true, if_false, WithTop.coe_le_coe, Bool.and_eq_true, decide_eq_true_eq]
      constructor
      · rintro ⟨a, b⟩; rw [hi]; exact le_antisymm b a
      · rintro rfl; exact ⟨le_of_eq hi.symm, le_of_eq hi⟩
  · by_cases hm : |time - max_time| < 1/1000
    · unfold suffixRegion
      simp only [if_neg hi, if_pos hm, Region.contains]
      simp [WithTop.coe_lt_top]
    · unfold suffixRegion
      simp only [if_neg hi, if_neg hm, Region.contains]
      simp [WithTop.coe_lt_coe, ← WithTop.coe_one, ← WithTop.coe_add]

/-- Containment as the conjunction of the two bound checks. -/
lemma contains_iff_boundOK (r : Region) (t : ℚ) :
    r.contains t = true ↔
      boundOKLow r.lower r.lower_inclusive t ∧
      boundOKHigh r.upper r.upper_inclusive (t : WithTop ℚ) := by
  cases hl : r.lower_inclusive <;> cases hu : r.upper_inclusive <;>
    simp [Region.contains, boundOKLow, boundOKHigh, hl, hu]

/-- A lower-bound check weakens when the bound decreases strictly. -/
lemma boundOKLow_of_lt {α : Type} [LinearOrder α] {a b t : α} (h : a < b)
    (ib ia : Bool) : boundOKLow b ib t → boundOKLow a ia t := by
  intro hb
  have hat : a < t := by
    cases ib <;> simp [boundOKLow] at hb
    · exact h.trans hb
    · exact h.trans_le hb
  cases ia <;> simp [boundOKLow]
  · exact hat
  · exact hat.le

/-- An upper-bound check weakens when the bound increases strictly. -/
lemma boundOKHigh_of_lt {α : Type} [LinearOrder α] {a b t : α} (h : a < b)
    (ia ib : Bool) : boundOKHigh a ia t → boundOKHigh b ib t := by
  intro ha
  have hat : t < b := by
    cases ia <;> simp [boundOKHigh] at ha
    · exact ha.trans h
    · exact lt_of_le_of_lt ha h
  cases ib <;> simp [boundOKHigh]
  · exact hat
  · exact hat.le

/-- Lower-bound check of the merged hull: union of the two checks. -/
lemma boundOKLow_min_iff {α : Type} [LinearOrder α] (a b t : α) (ia ib : Bool) :
    boundOKLow (min a b)
      ((decide (a = min a b) && ia) || (decide (b = min a b) && ib)) t ↔
      boundOKLow a ia t ∨ boundOKLow b ib t := by
  rcases lt_trichotomy a b with h | h | h
  · have hm : min a b = a := min_eq_left h.le
    have hb : (b = a) = False := eq_false h.ne'
    simp only [hm, hb, eq_self_iff_true, decide_True, decide_False, Bool.false_and,
      Bool.or_false, Bool.true_and]
    constructor
    · exact Or.inl
    · rintro (h' | h')
      · exact h'
      · exact boundOKLow_of_lt h ib ia h'
  · subst h
    simp only [min_self, eq_self_iff_true, decide_True, Bool.true_and]
    cases ia <;> cases ib <;> simp [boundOKLow]
    all_goals exact fun h' => h'.le
  · have hm : min a b = b := min_eq_right h.le
    have ha : (a = b) = False := eq_false h.ne'
    simp only [hm, ha, eq_self_iff_true, decide_True, decide_False, Bool.false_and,
      Bool.false_or, Bool.true_and]
    constructor
    · exact Or.inr
    · rintro (h' | h')
      · exact boundOKLow_of_lt h ia ib h'
      · exact h'

/-- Upper-bound check of the merged hull: union of the two checks. -/
lemma boundOKHigh_max_iff {α : Type} [LinearOrder α] (a b t : α) (ia ib : Bool) :
    boundOKHigh (max a b)
      ((decide (a = max a b) && ia) || (decide (b = max a b) && ib)) t ↔
      boundOKHigh a ia t ∨ boundOKHigh b ib t := by
  rcases lt_trichotomy a b with h | h | h
  · have hm : max a b = b := max_eq_right h.le
    have ha : (a = b) = False := eq_false h.ne
    simp only [hm, ha, eq_self_iff_true, decide_True, decide_False, Bool.false_and,
      Bool.false_or, Bool.true_and]
    constructor
    · exact Or.inr
    · rintro (h' | h')
      · exact boundOKHigh_of_lt h ia ib h'
      · exact h'
  · subst h
    simp only [max_self, eq_self_iff_true, decide_True, Bool.true_and]
    cases ia <;> cases ib <;> simp [boundOKHigh]
    all_goals exact fun h' => h'.le
  · have hm : max a b = a := max_eq_left h.le
    have hb : (b = a) = False := eq_false h.ne
    simp only [hm, hb, eq_self_iff_true, decide_True, decide_False, Bool.false_and,
      Bool.or_false, Bool.true_and]
    constructor
    · exact Or.inl
    · rintro (h' | h')
      · exact h'
      · exact boundOKHigh_of_lt h ib ia h'

/-- A successful merge means the code's adjacency-or-overlap predicate held
and the result is the hull with inherited closure flags. -/
lemma mergeRegions_eq_some {r1 r2 m : Region} (hm : mergeRegions r1 r2 = some m) :
    regionsAdjacentOrOverlapping r1 r2 = true ∧
    m = { lower := min r1.lower r2.lower, upper := max r1.upper r2.upper,
          lower_inclusive :=
            (decide (r1.lower = min r1.lower r2.lower) && r1.lower_inclusive) ||
            (decide (r2.lower = min r1.lower r2.lower) && r2.lower_inclusive),
          upper_inclusive :=
            (decide (r1.upper = max r1.upper r2.upper) && r1.upper_inclusive) ||
            (decide (r2.upper = max r1.upper r2.upper) && r2.upper_inclusive) } := by
  rw [mergeRegions] at hm
  split at hm
  · cases hm
  · next h => exact ⟨not_not.mp h, (Option.some.inj hm).symm⟩

/-- For well-formed regions the code's adjacency-or-overlap predicate bounds
each lower bound by the other region's upper bound. -/
lemma adjacentOrOverlapping_bounds {r1 r2 : Region}
    (h1 : (r1.lower : WithTop ℚ) ≤ r1.upper) (h2 : (r2.lower : WithTop ℚ) ≤ r2.upper)
    (hd : regionsAdjacentOrOverlapping r1 r2 = true) :
    (r1.lower : WithTop ℚ) ≤ r2.upper ∧ (r2.lower : WithTop ℚ) ≤ r1.upper := by
  simp only [regionsAdjacentOrOverlapping, Bool.or_eq_true, Bool.and_eq_true,
    decide_eq_true_eq, ge_iff_le] at hd
  rcases hd with ((⟨a, b⟩ | ⟨a, b⟩) | (⟨e, _⟩ | ⟨e, _⟩))
  · exact ⟨a, b⟩
  · exact ⟨b, a⟩
  · refine ⟨?_, e.ge⟩
    calc (r1.lower : WithTop ℚ) ≤ r1.upper := h1
      _ = (r2.lower : WithTop ℚ) := e
      _ ≤ r2.upper := h2
  · refine ⟨e.ge, ?_⟩
    calc (r2.lower : WithTop ℚ) ≤ r2.upper := h2
      _ = (r1.lower : WithTop ℚ) := e
      _ ≤ r1.upper := h1

/-- C8 amended: for well-formed regions (`lo ≤ hi`, the spec's §3 region
invariant) on which merge is defined, and which do not merely touch at a
single shared bound excluded on both sides, the merged region contains a time
value exactly when one of the two regions does. -/
theorem C8_amended (r1 r2 m : Region) (t : ℚ)
    (h1 : (r1.lower : WithTop ℚ) ≤ r1.upper)
    (h2 : (r2.lower : WithTop ℚ) ≤ r2.upper)
    (hm : mergeRegions r1 r2 = some m)
    (ht1 : ¬(r1.upper = (r2.lower : WithTop ℚ) ∧ r1.upper_inclusive = false ∧
             r2.lower_inclusive = false))
    (ht2 : ¬(r2.upper = (r1.lower : WithTop ℚ) ∧ r2.upper_inclusive = false ∧
             r1.lower_inclusive = false)) :
    m.contains t = (r1.contains t || r2.contains t) := by
  obtain ⟨hdef, rfl⟩ := mergeRegions_eq_some hm
  obtain ⟨hb1, hb2⟩ := adjacentOrOverlapping_bounds h1 h2 hdef
  rw [Bool.eq_iff_iff, Bool.or_eq_true, contains_iff_boundOK, contains_iff_boundOK,
    contains_iff_boundOK]
  dsimp only
  rw [boundOKLow_min_iff, boundOKHigh_max_iff]
  constructor
  · rintro ⟨hL | hL, hU | hU⟩
    · exact Or.inl ⟨hL, hU⟩
    · by_cases hU1 : boundOKHigh r1.upper r1.upper_inclusive (t : WithTop ℚ)
      · exact Or.inl ⟨hL, hU1⟩
      by_cases hL2 : boundOKLow r2.lower r2.lower_inclusive t
      · exact Or.inr ⟨hL2, hU⟩
      exfalso
      cases h1u : r1.upper_inclusive <;>
        simp only [boundOKHigh, h1u, if_true, if_false, Bool.false_eq_true, not_lt,
          not_le, ite_false, ite_true] at hU1
      · cases h2l : r2.lower_inclusive <;>
          simp only [boundOKLow, h2l, Bool.false_eq_true, not_lt, not_le,
            ite_false, ite_true] at hL2
        · have htl2 : (t : WithTop ℚ) ≤ (r2.lower : WithTop ℚ) :=
            WithTop.coe_le_coe.mpr hL2
          exact ht1 ⟨le_antisymm (hU1.trans htl2) hb2, h1u, h2l⟩
        · have htl2 : (t : WithTop ℚ) < (r2.lower : WithTop ℚ) :=
            WithTop.coe_lt_coe.mpr hL2
          exact absurd hb2 (not_le.mpr (lt_of_le_of_lt hU1 htl2))
      · cases h2l : r2.lower_inclusive <;>
          simp only [boundOKLow, h2l, Bool.false_eq_true, not_lt, not_le,
            ite_false, ite_true] at hL2
        · have htl2 : (t : WithTop ℚ) ≤ (r2.lower : WithTop ℚ) :=
            WithTop.coe_le_coe.mpr hL2
          exact absurd hb2 (not_le.mpr (lt_of_lt_of_le hU1 htl2))
        · have htl2 : (t : WithTop ℚ) < (r2.lower : WithTop ℚ) :=
            WithTop.coe_lt_coe.mpr hL2
          exact absurd hb2 (not_le.mpr (lt_trans hU1 htl2))
    · by_cases hU2 : boundOKHigh r2.upper r2.upper_inclusive (t : WithTop ℚ)
      · exact Or.inr ⟨hL, hU2⟩
      by_cases hL1 : boundOKLow r1.lower r1.lower_inclusive t
      · exact Or.inl ⟨hL1, hU⟩
      exfalso
      cases h2u : r2.upper_inclusive <;>
        simp only [boundOKHigh, h2u, Bool.false_eq_true, not_lt, not_le,
          ite_false, ite_true] at hU2
      · cases h1l : r1.lower_inclusive <;>
          simp only [boundOKLow, h1l, Bool.false_eq_true, not_lt, not_le,
            ite_false, ite_true] at hL1
        · have htl1 : (t : WithTop ℚ) ≤ (r1.lower : WithTop ℚ) :=
            WithTop.coe_le_coe.mpr hL1
          exact ht2 ⟨le_antisymm (hU2.trans htl1) hb1, h2u, h1l⟩
        · have htl1 : (t : WithTop ℚ) < (r1.lower : WithTop ℚ) :=
            WithTop.coe_lt_coe.mpr hL1
          exact absurd hb1 (not_le.mpr (lt_of_le_of_lt hU2 htl1))
      · cases h1l : r1.lower_inclusive <;>
          simp only [boundOKLow, h1l, Bool.false_eq_true, not_lt, not_le,
            ite_false, ite_true] at hL1
        · have htl1 : (t : WithTop ℚ) ≤ (r1.lower : WithTop ℚ) :=
            WithTop.coe_le_coe.mpr hL1
          exact absurd hb1 (not_le.mpr (lt_of_lt_of_le hU2 htl1))
        · have htl1 : (t : WithTop ℚ) < (r1.lower : WithTop ℚ) :=
            WithTop.coe_lt_coe.mpr hL1
          exact absurd hb1 (not_le.mpr (lt_trans hU2 htl1))
    · exact Or.inr ⟨hL, hU⟩
  · rintro (⟨hL, hU⟩ | ⟨hL, hU⟩)
    · exact ⟨Or.inl hL, Or.inl hU⟩
    · exact ⟨Or.inr hL, Or.inr hU⟩

/-- C8 counterexample: `(0,1)` and `(1,2)` count as overlapping for the code
(its overlap test ignores the closure flags), so `merge` is defined and yields
`(0,2)`, which contains `1` although neither region does: the containment
duality fails as stated. -/
theorem C8_counterexample :
    regionsAdjacentOrOverlapping ⟨0, ((1:ℚ) : WithTop ℚ), false, false⟩
        ⟨1, ((2:ℚ) : WithTop ℚ), false, false⟩ = true ∧
    mergeRegions ⟨0, ((1:ℚ) : WithTop ℚ), false, false⟩
        ⟨1, ((2:ℚ) : WithTop ℚ), false, false⟩ =
      some ⟨0, ((2:ℚ) : WithTop ℚ), false, false⟩ ∧
    Region.contains ⟨0, ((2:ℚ) : WithTop ℚ), false, false⟩ 1 = true ∧
    Region.contains ⟨0, ((1:ℚ) : WithTop ℚ), false, false⟩ 1 = false ∧
    Region.contains ⟨1, ((2:ℚ) : WithTop ℚ), false, false⟩ 1 = false := by decide

/-- C8 witness: duality at `t = 1` for `[0,1)` and `[1,2]`, where the merge is
`[0,2]`. -/
theorem C8_witness :
    Region.contains ⟨0, ((2:ℚ) : WithTop ℚ), true, true⟩ 1 =
      (Region.contains ⟨0, ((1:ℚ) : WithTop ℚ), true, false⟩ 1 ||
       Region.contains ⟨1, ((2:ℚ) : WithTop ℚ), true, true⟩ 1) :=
  C8_amended ⟨0, ((1:ℚ) : WithTop ℚ), true, false⟩ ⟨1, ((2:ℚ) : WithTop ℚ), true, true⟩
    ⟨0, ((2:ℚ) : WithTop ℚ), true, true⟩ 1 (by decide) (by decide) (by decide)
    (by decide) (by decide)

/-- The κ update `int(tau) + (1 if tau > int(tau) else 0)` is the ceiling. -/
lemma pyCeil_eq (t : ℚ) : pyInt t + (if t > (pyInt t : ℚ) then 1 else 0) = ⌈t⌉ := by
  by_cases h0 : 0 ≤ t
  · simp only [pyInt, if_pos h0]
    by_cases hi : t = (⌊t⌋ : ℚ)
    · rw [if_neg (by rw [← hi]; exact lt_irrefl t)]
      have he : ⌈t⌉ = ⌊t⌋ := by rw [hi]; simp
      omega
    · have hlt : (⌊t⌋ : ℚ) < t := lt_of_le_of_ne (Int.floor_le t) (Ne.symm hi)
      rw [if_pos hlt]
      have hle : ⌈t⌉ ≤ ⌊t⌋ + 1 := Int.ceil_le_floor_add_one t
      have hgt : ⌊t⌋ < ⌈t⌉ := by
        have h1 : (⌊t⌋ : ℚ) < (⌈t⌉ : ℚ) := lt_of_lt_of_le hlt (Int.le_ceil t)
        exact_mod_cast h1
      omega
  · simp only [pyInt, if_neg h0]
    rw [if_neg (not_lt.mpr (Int.le_ceil t))]
    omega

/-- One trace's κ fold in terms of the ceilings of its timestamps. -/
lemma kappa_trace_fold (trace : List (String × ℚ)) (a : ℤ) :
    trace.foldl (fun kappa p =>
      max kappa (pyInt p.2 + (if p.2 > (pyInt p.2 : ℚ) then 1 else 0))) a =
    (trace.map Prod.snd).foldl (fun k t => max k ⌈t⌉) a := by
  rw [List.foldl_map]
  simp only [pyCeil_eq]

/-- The nested κ fold equals the fold over the flattened timestamp list. -/
lemma kappa_flat_fold (S : List (List (String × ℚ))) (a : ℤ) :
    S.foldl (fun kappa trace =>
      trace.foldl (fun kappa p =>
        max kappa (pyInt p.2 + (if p.2 > (pyInt p.2 : ℚ) then 1 else 0))) kappa) a =
    (S.flatMap (fun trace => trace.map Prod.snd)).foldl (fun k t => max k ⌈t⌉) a := by
  induction S generalizing a with
  | nil => rfl
  | cons tr rest ih =>
    rw [List.foldl_cons, List.flatMap_cons, List.foldl_append, kappa_trace_fold, ih]

/-- `kappaOf` as a single fold of ceilings over all timestamps. -/
lemma kappaOf_eq_fold (S : List (List (String × ℚ))) :
    kappaOf S = (allTimes S).foldl (fun k t => max k ⌈t⌉) 0 :=
  kappa_flat_fold S 0

/-- The ceiling-max fold is bounded by any bound of its inputs. -/
lemma foldl_max_le (l : List ℚ) (B a : ℤ) (ha : a ≤ B) (h : ∀ t ∈ l, ⌈t⌉ ≤ B) :
    l.foldl (fun k t => max k ⌈t⌉) a ≤ B := by
  induction l generalizing a with
  | nil => exact ha
  | cons x xs ih =>
    exact ih _ (max_le ha (h x (by simp))) (fun t ht => h t (by simp [ht]))

/-- The ceiling-max fold dominates its initial value. -/
lemma le_foldl_max (l : List ℚ) (a : ℤ) : a ≤ l.foldl (fun k t => max k ⌈t⌉) a := by
  induction l generalizing a with
  | nil => exact le_refl a
  | cons x xs ih => exact le_trans (le_max_left a ⌈x⌉) (ih _)

/-- The ceiling-max fold dominates the ceiling of every member. -/
lemma mem_le_foldl_max (l : List ℚ) (a : ℤ) (t : ℚ) (ht : t ∈ l) :
    ⌈t⌉ ≤ l.foldl (fun k t => max k ⌈t⌉) a := by
  induction l generalizing a with
  | nil => cases ht
  | cons x xs ih =>
    rcases List.mem_cons.mp ht with rfl | h'
    · exact le_trans (le_max_right a ⌈t⌉) (le_foldl_max xs _)
    · exact ih _ h'

/-- The paired middle section of the region list has length 2κ. -/
lemma flatMap_pair_length (k : ℕ) :
    ((List.range k).flatMap (fun i =>
      [(⟨(i : ℚ), ((i : ℚ) + 1 : ℚ), false, false⟩ : Region),
       ⟨((i : ℚ) + 1 : ℚ), (((i : ℚ) + 1 : ℚ) : WithTop ℚ), true, true⟩])).length =
      2 * k := by
  induction k with
  | zero => rfl
  | succ n ih =>
    rw [List.range_succ, List.flatMap_append, List.length_append, ih]
    simp
    omega

/-- Element j of the paired middle section of the region list. -/
lemma flatMap_pair_getElem (k j : ℕ) :
    ((List.range k).flatMap (fun i =>
      [(⟨(i : ℚ), ((i : ℚ) + 1 : ℚ), false, false⟩ : Region),
       ⟨((i : ℚ) + 1 : ℚ), (((i : ℚ) + 1 : ℚ) : WithTop ℚ), true, true⟩]))[j]? =
      (if j < 2 * k then
        (if j % 2 = 0 then
          some ⟨((j / 2 : ℕ) : ℚ), (((j / 2 : ℕ) : ℚ) + 1 : ℚ), false, false⟩
         else
          some ⟨(((j / 2 : ℕ) : ℚ) + 1 : ℚ),
            ((((j / 2 : ℕ) : ℚ) + 1 : ℚ) : WithTop ℚ), true, true⟩)
       else none) := by
  induction k with
  | zero => simp
  | succ n ih =>
    rw [List.range_succ, List.flatMap_append]
    by_cases hj : j < 2 * n
    · rw [List.getElem?_append_left (by rw [flatMap_pair_length]; exact hj)]
      rw [ih, if_pos hj, if_pos (show j < 2 * (n + 1) by omega)]
    · rw [List.getElem?_append_right (by rw [flatMap_pair_length]; omega)]
      rw [flatMap_pair_length]
      by_cases he : j = 2 * n
      · subst he
        rw [show 2 * n - 2 * n = 0 by omega]
        rw [if_pos (show 2 * n < 2 * (n + 1) by omega),
          if_pos (show (2 * n) % 2 = 0 by omega),
          show (2 * n) / 2 = n by omega]
        simp
      · by_cases he1 : j = 2 * n + 1
        · subst he1
          rw [show 2 * n + 1 - 2 * n = 1 by omega]
          rw [if_pos (show 2 * n + 1 < 2 * (n + 1) by omega),
            if_neg (show ¬((2 * n + 1) % 2 = 0) by omega),
            show (2 * n + 1) / 2 = n by omega]
          simp
        · obtain ⟨v, hv⟩ : ∃ v, j - 2 * n = v + 2 := ⟨j - 2 * n - 2, by omega⟩
          rw [hv, if_neg (show ¬(j < 2 * (n + 1)) by omega)]
          simp

/-- The region list for bound κ has length 2κ + 2. -/
lemma buildRegions_length (K : ℕ) : (buildRegions K).length = 2 * K + 2 := by
  rw [buildRegions, List.singleton_append, List.cons_append, List.length_cons,
    List.length_append, flatMap_pair_length, List.length_singleton]

/-- Element j of the region list matches the canonical enumeration. -/
lemma buildRegions_getElem (K j : ℕ) : (buildRegions K)[j]? = regionAt K j := by
  rw [buildRegions, List.singleton_append, List.cons_append]
  rcases j with _ | j'
  · simp [regionAt]
  · rw [List.getElem?_cons_succ, regionAt]
    by_cases hj : j' < 2 * K
    · rw [List.getElem?_append_left (by rw [flatMap_pair_length]; exact hj)]
      rw [flatMap_pair_getElem, if_pos hj]
      rw [if_neg (show ¬(j' + 1 = 0) by omega),
        if_neg (show ¬(j' + 1 = 2 * K + 1) by omega),
        if_pos (show j' + 1 < 2 * K + 1 by omega)]
      by_cases hpar : j' % 2 = 0
      · rw [if_pos hpar, if_pos (show (j' + 1) % 2 = 1 by omega),
          show (j' + 1) / 2 = j' / 2 by omega]
      · rw [if_neg hpar, if_neg (show ¬((j' + 1) % 2 = 1) by omega),
          show (j' + 1) / 2 = j' / 2 + 1 by omega]
        push_cast
        rfl
    · rw [List.getElem?_append_right (by rw [flatMap_pair_length]; omega)]
      rw [flatMap_pair_length]
      by_cases he : j' = 2 * K
      · subst he
        rw [show 2 * K - 2 * K = 0 by omega,
          if_neg (show ¬(2 * K + 1 = 0) by omega),
          if_pos (show 2 * K + 1 = 2 * K + 1 by rfl)]
        simp
      · obtain ⟨v, hv⟩ : ∃ v, j' - 2 * K = v + 1 := ⟨j' - 2 * K - 1, by omega⟩
        rw [hv, if_neg (show ¬(j' + 1 = 0) by omega),
          if_neg (show ¬(j' + 1 = 2 * K + 1) by omega),
          if_neg (show ¬(j' + 1 < 2 * K + 1) by omega)]
        simp

/-- C7: `BuildTimedAPTA` computes κ as the ceiling of the maximum timestamp of
the combined sample set (timestamps being non-negative), and its region list
enumerates exactly the 2κ+2 regions `[0,0], (0,1), [1,1], …, [κ,κ], (κ,∞)` in
that order (position-by-position). -/
theorem C7_kappa_and_regions (S_pos S_neg : List (List (String × ℚ))) (m : ℚ)
    (hmax : (allTimes (S_pos ++ S_neg)).maximum = some m)
    (hnn : ∀ t ∈ allTimes (S_pos ++ S_neg), 0 ≤ t) :
    kappaOf (S_pos ++ S_neg) = ⌈m⌉ ∧
    (timedAPTARegions (S_pos ++ S_neg)).length =
      2 * (kappaOf (S_pos ++ S_neg)).toNat + 2 ∧
    ∀ j : ℕ, (timedAPTARegions (S_pos ++ S_neg))[j]? =
      regionAt (kappaOf (S_pos ++ S_neg)).toNat j := by
  have hmem : m ∈ allTimes (S_pos ++ S_neg) := List.maximum_mem hmax
  have hk : kappaOf (S_pos ++ S_neg) = ⌈m⌉ := by
    rw [kappaOf_eq_fold]
    refine le_antisymm ?_ ?_
    · exact foldl_max_le _ _ _ (Int.ceil_nonneg (hnn m hmem))
        (fun t ht => Int.ceil_le_ceil (List.le_maximum_of_mem ht hmax))
    · exact mem_le_foldl_max _ _ _ hmem
  refine ⟨hk, ?_, ?_⟩
  · rw [timedAPTARegions]; exact buildRegions_length _
  · intro j; rw [timedAPTARegions]; exact buildRegions_getElem _ j

/-- C7 witness: samples with timestamps 2.5 and 3 give κ = ⌈3⌉ = 3. -/
theorem C7_witness :
    kappaOf ([[("a", 5/2)]] ++ [[("b", 3)]]) = ⌈(3 : ℚ)⌉ :=
  (C7_kappa_and_regions [[("a", 5/2)]] [[("b", 3)]] 3 (by decide) (by decide)).1

end RTA
